import Mathlib

/-!
# Jstacs `de_jstacs_utils_UserTime.c`

A shallow embedding of the native half of `de.jstacs.utils.UserTime`: the
preprocessor conditional that selects one of two platform variants, and the two
JNI entry points `Java_de_jstacs_utils_UserTime_getUserTime` and
`Java_de_jstacs_utils_UserTime_getTicks` of each variant.

Conventions.
* The operating system is an explicit state value; every OS call and every
  entry point returns its result together with the state it leaves behind.
* The locals of an entry point are uninitialised in C, so their contents at
  entry are an explicit argument.
* Machine integers are `Nat` or `Int` with explicit wrap-around.  A
  `FILETIME` is laid out low word first on a little-endian machine, and
  `clock_t` and `long` are the signed 64-bit `long` of an LP64 target.
* A `jfloat` is an IEEE 754 binary32 number.  Every value the program produces
  is the conversion of a 64-bit integer, and such a conversion is an integer
  again, so a `jfloat` result is represented by its exact value in `Int`.
  C leaves the direction of an inexact conversion to the implementation; the
  model takes the IEEE 754 default, round to nearest with ties to even.
* The unused parameters `JNIEnv *e` and `jobject obj` are left out.
-/

namespace UserTime

/-! ## Machine integers -/

/-- Two's-complement reading of the low 64 bits of `v` (`__int64`, `jlong`,
and `long`/`clock_t` on an LP64 target). -/
def wrapInt64 (v : Int) : Int :=
  (v + 2 ^ 63) % 2 ^ 64 - 2 ^ 63

/-- The Windows `FILETIME` structure: two `DWORD`s, low word first. -/
structure FILETIME where
  dwLowDateTime : Nat
  dwHighDateTime : Nat

/-- The 64 bits stored in a `FILETIME`: high word `* 2^32 +` low word, each
word reduced to its 32 bits. -/
def FILETIME.bits (ft : FILETIME) : Nat :=
  (ft.dwHighDateTime % 2 ^ 32) * 2 ^ 32 + ft.dwLowDateTime % 2 ^ 32

/-- The read `*((__int64 *) &ft)`: the 64 bits of the structure taken as a
signed 64-bit integer. -/
def FILETIME.asInt64 (ft : FILETIME) : Int :=
  wrapInt64 (ft.bits : Int)

/-! ## Conversion of a 64-bit integer to `jfloat` -/

/-- Number of low bits a magnitude loses when it is cut to a 24-bit
significand: the least `s` with `n / 2^s < 2^24` (for `n < 2^(24 + fuel)`). -/
def float32Shift : Nat → Nat → Nat
  | 0, _ => 0
  | fuel + 1, n => if n < 2 ^ 24 then 0 else float32Shift fuel (n / 2) + 1

/-- Round a magnitude below `2^64` to binary32: keep the top 24 bits and round
the dropped bits to nearest, ties to the even significand. -/
def roundFloat32 (n : Nat) : Nat :=
  let s := float32Shift 64 n
  let q := n / 2 ^ s
  let r := n % 2 ^ s
  if 2 * r < 2 ^ s then q * 2 ^ s
  else if 2 * r = 2 ^ s then (if q % 2 = 0 then q else q + 1) * 2 ^ s
  else (q + 1) * 2 ^ s

/-- The conversion `(jfloat) x` of a signed 64-bit integer: the sign is kept
and the magnitude is rounded; the result is the exact value of the float. -/
def int64ToFloat (x : Int) : Int :=
  if x < 0 then -((roundFloat32 x.natAbs : Nat) : Int) else ((roundFloat32 x.natAbs : Nat) : Int)

/-- A magnitude that a binary32 significand and exponent can hold. -/
def Rep (y : Nat) : Prop :=
  ∃ m k : Nat, m < 2 ^ 24 ∧ y = m * 2 ^ k

/-- An integer is a binary32 value when it is `± m * 2^k` with a significand
`m` of at most 24 bits. -/
def IsFloat32 (y : Int) : Prop :=
  ∃ m k : Nat, m < 2 ^ 24 ∧ y.natAbs = m * 2 ^ k

/-- A rational is a binary32 value when it is `± m * 2^e` with a significand
`m` of at most 24 bits and an integer exponent `e`.  The exponent is not
bounded here, so this contains every finite binary32 number. -/
def IsBinary32 (y : ℚ) : Prop :=
  ∃ (m : Nat) (e : Int), m < 2 ^ 24 ∧ |y| = (m : ℚ) * (2 : ℚ) ^ e

/-! ## Line 7: `#ifdef __WIN32__ || _MSC_VER` -/

/-- The two macros named on the conditional's line. -/
inductive Macro where
  | __WIN32__
  | _MSC_VER
  deriving DecidableEq, Repr

/-- Tokens that appear after `#ifdef` on line 7. -/
inductive PPToken where
  | ident (m : Macro)
  | barbar
  deriving DecidableEq, Repr

/-- A build configuration: which of the macros the compiler has defined. -/
structure BuildConfig where
  defined : Macro → Bool

/-- The operand of the `#ifdef` on line 7, as written. -/
def ifdefLine : List PPToken :=
  [PPToken.ident Macro.__WIN32__, PPToken.barbar, PPToken.ident Macro._MSC_VER]

/-- The `#ifdef` directive: it takes one identifier and tests whether that
macro is defined.  Tokens after the identifier are not part of the directive;
compilers diagnose them as extra tokens and do not evaluate them. -/
def evalIfdef (cfg : BuildConfig) : List PPToken → Bool
  | PPToken.ident m :: _ => cfg.defined m
  | _ => false

/-- The `#if defined(..) || defined(..)` reading of the same tokens, for
comparison: an identifier is true when defined and `||` is disjunction. -/
def evalDefinedExpr (cfg : BuildConfig) : List PPToken → Bool
  | [] => false
  | PPToken.ident m :: rest => cfg.defined m || evalDefinedExpr cfg rest
  | PPToken.barbar :: rest => evalDefinedExpr cfg rest

/-- The two groups of the conditional. -/
inductive Variant where
  | Windows
  | Posix
  deriving DecidableEq, Repr

/-- The groups of `#ifdef .. #else .. #endif` that reach the compiler. -/
def compiledVariants (cfg : BuildConfig) : List Variant :=
  if evalIfdef cfg ifdefLine then [Variant.Windows] else [Variant.Posix]

/-! ## The Windows group (lines 9 to 24) -/

namespace Windows

/-- The four output buffers of `GetProcessTimes`; also the four locals of
`getUserTime`. -/
structure ProcessTimes where
  ftCreation : FILETIME
  ftExit : FILETIME
  ftKernel : FILETIME
  ftUser : FILETIME

/-- The part of the Windows kernel the program talks to.
`querySucceeds h` says whether `GetProcessTimes` succeeds on handle `h`;
`times` is the accounting of the current process; `failureLeaves` is what a
failing query stores in the output buffers, `none` when it leaves them
untouched. -/
structure OS where
  querySucceeds : Int → Bool
  times : ProcessTimes
  failureLeaves : Option ProcessTimes

/-- `GetCurrentProcess()`: the pseudo handle of the calling process. -/
def GetCurrentProcess (os : OS) : Int × OS :=
  (-1, os)

/-- `GetProcessTimes(h, &c, &e, &k, &u)`: the return code, the buffers after
the call, and the OS state. -/
def GetProcessTimes (os : OS) (hProcess : Int) (bufs : ProcessTimes) : Bool × ProcessTimes × OS :=
  if os.querySucceeds hProcess then (true, os.times, os)
  else (false, os.failureLeaves.getD bufs, os)

/-- Lines 12 to 18.  `locals` holds the indeterminate contents of
`ftCreation, ftExit, ftKernel, ftUser` at entry. -/
def Java_de_jstacs_utils_UserTime_getUserTime (os : OS) (locals : ProcessTimes) : Int × OS :=
  let (h, os1) := GetCurrentProcess os
  let (_, bufs, os2) := GetProcessTimes os1 h locals
  (int64ToFloat bufs.ftUser.asInt64, os2)

/-- Lines 20 to 24. -/
def Java_de_jstacs_utils_UserTime_getTicks (os : OS) : Int × OS :=
  (wrapInt64 10000000, os)

end Windows

/-! ## The POSIX group (lines 28 to 43) -/

namespace Posix

/-- The `struct tms` of `<sys/times.h>`; the fields are `clock_t`. -/
structure tms where
  tms_utime : Int
  tms_stime : Int
  tms_cutime : Int
  tms_cstime : Int

/-- Names a caller can pass to `sysconf`; the program passes `_SC_CLK_TCK`. -/
inductive ConfName where
  | _SC_CLK_TCK
  | other (n : Nat)

/-- The part of a POSIX kernel the program talks to.
`timesSucceeds` says whether `times` succeeds, `acct` is the accounting of the
calling process, `elapsed` the real time `times` returns, `failureLeaves` what
a failing `times` stores in the buffer (`none`: untouched), and `conf name` the
`long` that `sysconf(name)` returns (`-1` for an error or no limit). -/
structure OS where
  timesSucceeds : Bool
  acct : tms
  elapsed : Int
  failureLeaves : Option tms
  conf : ConfName → Int

/-- `times(&buf)`: the return value, the buffer after the call, the OS state. -/
def times (os : OS) (buf : tms) : Int × tms × OS :=
  if os.timesSucceeds then (wrapInt64 os.elapsed, os.acct, os)
  else (-1, os.failureLeaves.getD buf, os)

/-- `sysconf(name)`: the configured value as a `long`. -/
def sysconf (os : OS) (name : ConfName) : Int × OS :=
  (wrapInt64 (os.conf name), os)

/-- Lines 31 to 37.  `x1` holds the indeterminate contents of the local at
entry.  The field is read as a `clock_t` (a `long`) and converted to the
`jfloat` return type. -/
def Java_de_jstacs_utils_UserTime_getUserTime (os : OS) (x1 : tms) : Int × OS :=
  let (_, x1', os1) := times os x1
  (int64ToFloat (wrapInt64 x1'.tms_utime), os1)

/-- Lines 39 to 43.  The `long` is converted to the `jlong` return type. -/
def Java_de_jstacs_utils_UserTime_getTicks (os : OS) : Int × OS :=
  let (v, os1) := sysconf os ConfName._SC_CLK_TCK
  (wrapInt64 v, os1)

end Posix

/-! ## Concrete states -/

/-- Locals whose bytes happen to be zero at entry. -/
def Windows.zeroLocals : Windows.ProcessTimes :=
  ⟨⟨0, 0⟩, ⟨0, 0⟩, ⟨0, 0⟩, ⟨0, 0⟩⟩

/-- Locals whose user-time slot holds stale bytes at entry. -/
def Windows.staleLocals : Windows.ProcessTimes :=
  ⟨⟨0, 0⟩, ⟨0, 0⟩, ⟨0, 0⟩, ⟨700, 0⟩⟩

/-- A Windows state whose query succeeds and reports user time `user`. -/
def Windows.osReporting (user : FILETIME) : Windows.OS :=
  ⟨fun _ => true, ⟨⟨0, 0⟩, ⟨0, 0⟩, ⟨0, 0⟩, user⟩, none⟩

/-- A Windows state whose query fails and leaves the buffers untouched. -/
def Windows.osFailing : Windows.OS :=
  ⟨fun _ => false, ⟨⟨0, 0⟩, ⟨0, 0⟩, ⟨0, 0⟩, ⟨5, 0⟩⟩, none⟩

/-- A POSIX local with zero bytes at entry. -/
def Posix.zeroLocal : Posix.tms :=
  ⟨0, 0, 0, 0⟩

/-- A POSIX local with stale bytes at entry. -/
def Posix.staleLocal : Posix.tms :=
  ⟨700, 0, 0, 0⟩

/-- A POSIX state whose `times` succeeds with user time `utime` and whose
`sysconf` reports `clk` for every name. -/
def Posix.osReporting (utime clk : Int) : Posix.OS :=
  ⟨true, ⟨utime, 0, 0, 0⟩, 1000, none, fun _ => clk⟩

/-- A POSIX state whose `times` fails and leaves the buffer untouched. -/
def Posix.osFailing : Posix.OS :=
  ⟨false, ⟨5, 0, 0, 0⟩, 1000, none, fun _ => 100⟩

/-- A POSIX state that differs from `Posix.osReporting 3000 100` in everything
but the configured clock tick: `times` fails and clobbers the buffer, the
accounting and the elapsed time are other values, and `sysconf` reports 7 for
every other name. -/
def Posix.osOtherAccounting : Posix.OS :=
  ⟨false, ⟨999999, 1, 2, 3⟩, 5, some ⟨42, 0, 0, 0⟩, fun n =>
    match n with
    | Posix.ConfName._SC_CLK_TCK => 100
    | Posix.ConfName.other _ => 7⟩

/-- A Windows state that differs from `Windows.osReporting ⟨3000, 0⟩` in every
field: the query fails and clobbers the buffers, and the accounting is other
values. -/
def Windows.osOtherAccounting : Windows.OS :=
  ⟨fun _ => false, ⟨⟨1, 1⟩, ⟨2, 2⟩, ⟨3, 3⟩, ⟨999999, 4⟩⟩,
    some ⟨⟨0, 0⟩, ⟨0, 0⟩, ⟨0, 0⟩, ⟨42, 0⟩⟩⟩

/-- A build with Microsoft's compiler: `_MSC_VER` is defined, `__WIN32__`
(a MinGW and Borland macro) is not. -/
def msvcBuild : BuildConfig :=
  ⟨fun m => match m with
    | Macro.__WIN32__ => false
    | Macro._MSC_VER => true⟩

/-! ## Rounding lemmas -/

/-- For a magnitude within the fuel, the shift leaves a quotient below `2^24`,
and a quotient of at least `2^23` whenever bits are dropped. -/
theorem float32Shift_spec (fuel : Nat) : ∀ n : Nat, n < 2 ^ (24 + fuel) →
    n / 2 ^ float32Shift fuel n < 2 ^ 24 ∧
      (0 < float32Shift fuel n → 2 ^ 23 ≤ n / 2 ^ float32Shift fuel n) := by
  induction fuel with
  | zero =>
    intro n h
    simp [float32Shift] at *
    omega
  | succ f ih =>
    intro n h
    unfold float32Shift
    split
    · simp
      omega
    · rename_i hn
      have h2 : n / 2 < 2 ^ (24 + f) := by
        have : 2 ^ (24 + (f + 1)) = 2 * 2 ^ (24 + f) := by ring
        omega
      obtain ⟨h3, h4⟩ := ih (n / 2) h2
      have e : n / 2 ^ (float32Shift f (n / 2) + 1) = n / 2 / 2 ^ float32Shift f (n / 2) := by
        rw [Nat.div_div_eq_div_mul, pow_succ, Nat.mul_comm]
      rw [e]
      refine ⟨h3, fun _ => ?_⟩
      by_cases hs : 0 < float32Shift f (n / 2)
      · exact h4 hs
      · have : float32Shift f (n / 2) = 0 := by omega
        rw [this]
        simp
        omega

theorem rep_gap (q s m k : Nat) (hm : m < 2 ^ 24) (hq : 0 < s → 2 ^ 23 ≤ q) :
    m * 2 ^ k ≤ q * 2 ^ s ∨ (q + 1) * 2 ^ s ≤ m * 2 ^ k := by
  rcases Nat.lt_or_ge k s with hk | hk
  · left
    have h1 : 2 ^ 23 ≤ q := hq (by omega)
    have h2 : 2 ^ (k + 1) ≤ 2 ^ s := Nat.pow_le_pow_right (by norm_num) hk
    calc m * 2 ^ k ≤ 2 ^ 24 * 2 ^ k := Nat.mul_le_mul_right _ hm.le
      _ = 2 ^ 23 * 2 ^ (k + 1) := by ring
      _ ≤ 2 ^ 23 * 2 ^ s := Nat.mul_le_mul_left _ h2
      _ ≤ q * 2 ^ s := Nat.mul_le_mul_right _ h1
  · have e : m * 2 ^ k = (m * 2 ^ (k - s)) * 2 ^ s := by
      rw [Nat.mul_assoc, ← pow_add, Nat.sub_add_cancel hk]
    rw [e]
    rcases Nat.lt_or_ge q (m * 2 ^ (k - s)) with h | h
    · right
      exact Nat.mul_le_mul_right _ h
    · left
      exact Nat.mul_le_mul_right _ h

/-- The shape of a rounding: the input is `A + r` with `A` a multiple of the
spacing `P`, the result is `A` or `A + P`, whichever is nearer, and no binary32
value lies strictly between them. -/
theorem roundFloat32_shape (n : Nat) (hn : n < 2 ^ 64) :
    ∃ A P r : Nat, n = A + r ∧ r < P ∧
      ((roundFloat32 n = A ∧ 2 * r ≤ P) ∨ (roundFloat32 n = A + P ∧ P ≤ 2 * r)) ∧
      (∀ y, Rep y → y ≤ A ∨ A + P ≤ y) ∧
      (P = 1 ∨ 2 ^ 23 * P ≤ A) ∧ Rep (roundFloat32 n) := by
  obtain ⟨hq, hs⟩ := float32Shift_spec 64 n (by omega)
  have hP : 0 < 2 ^ float32Shift 64 n := Nat.pos_pow_of_pos _ (by norm_num)
  have hdm := Nat.div_add_mod n (2 ^ float32Shift 64 n)
  have hr := Nat.mod_lt n hP
  refine ⟨n / 2 ^ float32Shift 64 n * 2 ^ float32Shift 64 n, 2 ^ float32Shift 64 n,
    n % 2 ^ float32Shift 64 n, ?_, hr, ?_, ?_, ?_, ?_⟩
  · rw [Nat.mul_comm]; exact hdm.symm
  · unfold roundFloat32
    simp only []
    split
    · left; exact ⟨rfl, by omega⟩
    · split
      · split
        · left; exact ⟨rfl, by omega⟩
        · right; exact ⟨by ring, by omega⟩
      · right; exact ⟨by ring, by omega⟩
  · rintro y ⟨m, k, hm, rfl⟩
    have := rep_gap (n / 2 ^ float32Shift 64 n) (float32Shift 64 n) m k hm hs
    rw [Nat.add_mul, Nat.one_mul] at this
    exact this
  · rcases Nat.eq_zero_or_pos (float32Shift 64 n) with h0 | h0
    · left; rw [h0]; rfl
    · right; exact Nat.mul_le_mul_right _ (hs h0)
  · have hA : Rep (n / 2 ^ float32Shift 64 n * 2 ^ float32Shift 64 n) := ⟨_, _, hq, rfl⟩
    have hB : Rep ((n / 2 ^ float32Shift 64 n + 1) * 2 ^ float32Shift 64 n) := by
      rcases Nat.lt_or_ge (n / 2 ^ float32Shift 64 n + 1) (2 ^ 24) with h | h
      · exact ⟨_, _, h, rfl⟩
      · have : n / 2 ^ float32Shift 64 n + 1 = 2 ^ 24 := by omega
        rw [this]
        exact ⟨2 ^ 23, float32Shift 64 n + 1, by norm_num, by rw [pow_succ]; ring⟩
    unfold roundFloat32
    simp only []
    split
    · exact hA
    · split
      · split
        · exact hA
        · exact hB
      · exact hB

theorem roundFloat32_rep (n : Nat) (hn : n < 2 ^ 64) : Rep (roundFloat32 n) := by
  obtain ⟨A, P, r, -, -, -, -, -, h⟩ := roundFloat32_shape n hn
  exact h

theorem roundFloat32_nearest (n y : Nat) (hn : n < 2 ^ 64) (hy : Rep y) :
    |((roundFloat32 n : Nat) : Int) - n| ≤ |(y : Int) - n| := by
  obtain ⟨A, P, r, h1, h2, h3, h4, -, -⟩ := roundFloat32_shape n hn
  have h5 := h4 y hy
  rcases abs_cases (((roundFloat32 n : Nat) : Int) - n) with ⟨e1, _⟩ | ⟨e1, _⟩ <;>
    rcases abs_cases ((y : Int) - n) with ⟨e2, _⟩ | ⟨e2, _⟩ <;>
    rw [e1, e2] <;> omega

theorem roundFloat32_exact (n : Nat) (hn : n ≤ 2 ^ 24) : roundFloat32 n = n := by
  rcases Nat.lt_or_ge n (2 ^ 24) with h | h
  · have h0 : float32Shift (63 + 1) n = 0 := by
      rw [float32Shift]
      exact if_pos h
    have h1 : float32Shift 64 n = 0 := h0
    simp [roundFloat32, h1, Nat.mod_one]
  · have : n = 2 ^ 24 := by omega
    subst this
    decide

theorem roundFloat32_mono (m n : Nat) (hmn : m ≤ n) (hn : n < 2 ^ 64) :
    roundFloat32 m ≤ roundFloat32 n := by
  by_contra hlt
  have h1 := roundFloat32_nearest m (roundFloat32 n) (by omega) (roundFloat32_rep n hn)
  have h2 := roundFloat32_nearest n (roundFloat32 m) hn (roundFloat32_rep m (by omega))
  have key : ∀ a b c d : Int, |a - c| ≤ |b - c| → |b - d| ≤ |a - d| → b < a → c ≤ d → c = d := by
    intro a b c d k1 k2 k3 k4
    rcases abs_cases (a - c) with ⟨e1, _⟩ | ⟨e1, _⟩ <;>
      rcases abs_cases (b - c) with ⟨e2, _⟩ | ⟨e2, _⟩ <;>
      rcases abs_cases (b - d) with ⟨e3, _⟩ | ⟨e3, _⟩ <;>
      rcases abs_cases (a - d) with ⟨e4, _⟩ | ⟨e4, _⟩ <;>
      rw [e1, e2] at k1 <;> rw [e3, e4] at k2 <;> omega
  have : (m : Int) = n := key _ _ _ _ h1 h2 (by omega) (by omega)
  have : m = n := by omega
  subst this
  omega

/-! ## Lemmas on the integer types and the conversion -/

theorem wrapInt64_range (v : Int) : -2 ^ 63 ≤ wrapInt64 v ∧ wrapInt64 v < 2 ^ 63 := by
  unfold wrapInt64
  omega

theorem wrapInt64_of_range (v : Int) (h1 : -2 ^ 63 ≤ v) (h2 : v < 2 ^ 63) : wrapInt64 v = v := by
  unfold wrapInt64
  omega

theorem wrapInt64_idem (v : Int) : wrapInt64 (wrapInt64 v) = wrapInt64 v :=
  wrapInt64_of_range _ (wrapInt64_range v).1 (wrapInt64_range v).2

theorem FILETIME.bits_lt (ft : FILETIME) : ft.bits < 2 ^ 64 := by
  unfold FILETIME.bits
  omega

theorem FILETIME.bits_of_dwords (ft : FILETIME) (hl : ft.dwLowDateTime < 2 ^ 32)
    (hh : ft.dwHighDateTime < 2 ^ 32) :
    ft.bits = ft.dwHighDateTime * 2 ^ 32 + ft.dwLowDateTime := by
  unfold FILETIME.bits
  rw [Nat.mod_eq_of_lt hl, Nat.mod_eq_of_lt hh]

theorem FILETIME.asInt64_of_lt (ft : FILETIME) (h : ft.bits < 2 ^ 63) :
    ft.asInt64 = (ft.bits : Int) := by
  unfold FILETIME.asInt64
  exact wrapInt64_of_range _ (by omega) (by omega)

theorem FILETIME.asInt64_of_ge (ft : FILETIME) (h : 2 ^ 63 ≤ ft.bits) :
    ft.asInt64 = (ft.bits : Int) - 2 ^ 64 := by
  have := ft.bits_lt
  unfold FILETIME.asInt64 wrapInt64
  omega

theorem natAbs_lt_of_int64 (x : Int) (h1 : -2 ^ 63 ≤ x) (h2 : x < 2 ^ 63) :
    x.natAbs < 2 ^ 64 := by
  omega

theorem int64ToFloat_of_nonneg (x : Int) (h : 0 ≤ x) :
    int64ToFloat x = ((roundFloat32 x.natAbs : Nat) : Int) := by
  unfold int64ToFloat
  rw [if_neg (not_lt.mpr h)]

theorem int64ToFloat_of_neg (x : Int) (h : x < 0) :
    int64ToFloat x = -((roundFloat32 x.natAbs : Nat) : Int) := by
  unfold int64ToFloat
  rw [if_pos h]

theorem roundFloat32_pos (n : Nat) (h0 : 0 < n) (hn : n < 2 ^ 64) : 0 < roundFloat32 n := by
  have h1 : roundFloat32 1 = 1 := by decide
  have h2 := roundFloat32_mono 1 n h0 hn
  omega

theorem int64ToFloat_nonneg_iff (x : Int) (h1 : -2 ^ 63 ≤ x) (h2 : x < 2 ^ 63) :
    0 ≤ int64ToFloat x ↔ 0 ≤ x := by
  constructor
  · intro h
    by_contra hx
    have hx' : x < 0 := not_le.mp hx
    rw [int64ToFloat_of_neg x hx'] at h
    have := roundFloat32_pos x.natAbs (by omega) (by omega)
    omega
  · intro h
    rw [int64ToFloat_of_nonneg x h]
    omega

theorem int64ToFloat_mono (x y : Int) (hx : -2 ^ 63 ≤ x) (hy : y < 2 ^ 63) (hxy : x ≤ y) :
    int64ToFloat x ≤ int64ToFloat y := by
  rcases lt_or_le x 0 with h | h
  · rcases lt_or_le y 0 with h' | h'
    · rw [int64ToFloat_of_neg x h, int64ToFloat_of_neg y h']
      have := roundFloat32_mono y.natAbs x.natAbs (by omega) (by omega)
      omega
    · rw [int64ToFloat_of_neg x h, int64ToFloat_of_nonneg y h']
      omega
  · rw [int64ToFloat_of_nonneg x h, int64ToFloat_of_nonneg y (le_trans h hxy)]
    have := roundFloat32_mono x.natAbs y.natAbs (by omega) (by omega)
    omega

theorem int64ToFloat_isFloat32 (x : Int) (h1 : -2 ^ 63 ≤ x) (h2 : x < 2 ^ 63) :
    IsFloat32 (int64ToFloat x) := by
  obtain ⟨m, k, hm, e⟩ := roundFloat32_rep x.natAbs (by omega)
  refine ⟨m, k, hm, ?_⟩
  rw [← e]
  rcases lt_or_le x 0 with h | h
  · rw [int64ToFloat_of_neg x h]
    omega
  · rw [int64ToFloat_of_nonneg x h]
    omega

theorem int64ToFloat_nearest (x y : Int) (h1 : -2 ^ 63 ≤ x) (h2 : x < 2 ^ 63)
    (hy : IsFloat32 y) : |int64ToFloat x - x| ≤ |y - x| := by
  have hr : Rep y.natAbs := hy
  have hn := roundFloat32_nearest x.natAbs y.natAbs (by omega) hr
  rcases lt_or_le x 0 with h | h
  · rw [int64ToFloat_of_neg x h]
    rcases abs_cases (((roundFloat32 x.natAbs : Nat) : Int) - x.natAbs) with ⟨e1, _⟩ | ⟨e1, _⟩ <;>
      rcases abs_cases ((y.natAbs : Int) - x.natAbs) with ⟨e2, _⟩ | ⟨e2, _⟩ <;>
      rcases abs_cases (-((roundFloat32 x.natAbs : Nat) : Int) - x) with ⟨e3, _⟩ | ⟨e3, _⟩ <;>
      rcases abs_cases (y - x) with ⟨e4, _⟩ | ⟨e4, _⟩ <;>
      rw [e1, e2] at hn <;> rw [e3, e4] <;> omega
  · rw [int64ToFloat_of_nonneg x h]
    rcases abs_cases (((roundFloat32 x.natAbs : Nat) : Int) - x.natAbs) with ⟨e1, _⟩ | ⟨e1, _⟩ <;>
      rcases abs_cases ((y.natAbs : Int) - x.natAbs) with ⟨e2, _⟩ | ⟨e2, _⟩ <;>
      rcases abs_cases (((roundFloat32 x.natAbs : Nat) : Int) - x) with ⟨e3, _⟩ | ⟨e3, _⟩ <;>
      rcases abs_cases (y - x) with ⟨e4, _⟩ | ⟨e4, _⟩ <;>
      rw [e1, e2] at hn <;> rw [e3, e4] <;> omega

theorem int64ToFloat_eq_self_iff (x : Int) (h1 : -2 ^ 63 ≤ x) (h2 : x < 2 ^ 63) :
    int64ToFloat x = x ↔ IsFloat32 x := by
  constructor
  · intro h
    have := int64ToFloat_isFloat32 x h1 h2
    rwa [h] at this
  · intro h
    have := int64ToFloat_nearest x x h1 h2 h
    rw [sub_self, abs_zero] at this
    have := abs_nonneg (int64ToFloat x - x)
    have h0 : |int64ToFloat x - x| = 0 := by omega
    have := abs_eq_zero.mp h0
    omega

theorem int64ToFloat_exact (x : Int) (h1 : -2 ^ 24 ≤ x) (h2 : x ≤ 2 ^ 24) :
    int64ToFloat x = x := by
  have e := roundFloat32_exact x.natAbs (by omega)
  rcases lt_or_le x 0 with h | h
  · rw [int64ToFloat_of_neg x h, e]
    omega
  · rw [int64ToFloat_of_nonneg x h, e]
    omega

theorem isFloat32_two_pow_24 : IsFloat32 (2 ^ 24) ∧ IsFloat32 (-2 ^ 24) :=
  ⟨⟨2 ^ 23, 1, by norm_num, by decide⟩, ⟨2 ^ 23, 1, by norm_num, by decide⟩⟩

theorem int64ToFloat_nearest_rat (x : Int) (h1 : -2 ^ 63 ≤ x) (h2 : x < 2 ^ 63) (y : ℚ)
    (hy : IsBinary32 y) : |((int64ToFloat x : Int) : ℚ) - (x : ℚ)| ≤ |y - (x : ℚ)| := by
  obtain ⟨m, e, hm, he⟩ := hy
  rcases le_or_lt 0 e with h | h
  · lift e to ℕ using h
    have habs : |y| = (((m * 2 ^ e : ℕ) : Int) : ℚ) := by
      rw [he, zpow_natCast]
      push_cast
      rfl
    rcases abs_cases y with ⟨e1, _⟩ | ⟨e1, _⟩
    · have hz := int64ToFloat_nearest x ((m * 2 ^ e : ℕ) : Int) h1 h2
        ⟨m, e, hm, Int.natAbs_ofNat _⟩
      have hyz : y = (((m * 2 ^ e : ℕ) : Int) : ℚ) := by rw [← e1, habs]
      rw [hyz]
      exact_mod_cast hz
    · have hz := int64ToFloat_nearest x (-((m * 2 ^ e : ℕ) : Int)) h1 h2
        ⟨m, e, hm, by rw [Int.natAbs_neg]; exact Int.natAbs_ofNat _⟩
      have hyz : y = ((-((m * 2 ^ e : ℕ) : Int) : Int) : ℚ) := by
        rw [Int.cast_neg, ← habs, e1, neg_neg]
      rw [hyz]
      exact_mod_cast hz
  · have hp : (2 : ℚ) ^ e ≤ 1 / 2 := by
      have : (2 : ℚ) ^ e ≤ (2 : ℚ) ^ (-1 : Int) := by
        apply zpow_le_zpow_right₀
        · norm_num
        · omega
      simpa using this
    have hm' : (m : ℚ) ≤ 2 ^ 24 := by exact_mod_cast hm.le
    have hpos : (0 : ℚ) ≤ (2 : ℚ) ^ e := by positivity
    have hy23 : |y| ≤ 2 ^ 23 := by
      rw [he]
      calc (m : ℚ) * (2 : ℚ) ^ e ≤ 2 ^ 24 * (2 : ℚ) ^ e := mul_le_mul_of_nonneg_right hm' hpos
        _ ≤ 2 ^ 24 * (1 / 2) := mul_le_mul_of_nonneg_left hp (by norm_num)
        _ = 2 ^ 23 := by norm_num
    by_cases hx : -2 ^ 24 ≤ x ∧ x ≤ 2 ^ 24
    · rw [int64ToFloat_exact x hx.1 hx.2, sub_self, abs_zero]
      exact abs_nonneg _
    · have n1 := int64ToFloat_nearest x (2 ^ 24) h1 h2 isFloat32_two_pow_24.1
      have n2 := int64ToFloat_nearest x (-2 ^ 24) h1 h2 isFloat32_two_pow_24.2
      have q1 : |((int64ToFloat x : Int) : ℚ) - (x : ℚ)| ≤ |(2 : ℚ) ^ 24 - (x : ℚ)| := by
        exact_mod_cast n1
      have q2 : |((int64ToFloat x : Int) : ℚ) - (x : ℚ)| ≤ |-(2 : ℚ) ^ 24 - (x : ℚ)| := by
        exact_mod_cast n2
      have hx' : (x : ℚ) < -2 ^ 24 ∨ (2 : ℚ) ^ 24 < (x : ℚ) := by
        rcases lt_or_le x (-2 ^ 24) with c | c
        · left; exact_mod_cast c
        · right
          have : 2 ^ 24 < x := by
            by_contra hc
            exact hx ⟨c, not_lt.mp hc⟩
          exact_mod_cast this
      rcases abs_cases y with ⟨e1, _⟩ | ⟨e1, _⟩ <;>
        rcases abs_cases (y - (x : ℚ)) with ⟨e2, _⟩ | ⟨e2, _⟩ <;>
        rcases abs_cases ((2 : ℚ) ^ 24 - (x : ℚ)) with ⟨e3, _⟩ | ⟨e3, _⟩ <;>
        rcases abs_cases (-(2 : ℚ) ^ 24 - (x : ℚ)) with ⟨e4, _⟩ | ⟨e4, _⟩ <;>
        rw [e1] at hy23 <;> rw [e3] at q1 <;> rw [e4] at q2 <;> rw [e2] <;>
        rcases hx' with c | c <;> linarith

theorem int64ToFloat_bounds (x : Int) (h1 : -2 ^ 63 ≤ x) (h2 : x < 2 ^ 63) :
    -2 ^ 63 ≤ int64ToFloat x ∧ int64ToFloat x ≤ 2 ^ 63 := by
  have e1 : int64ToFloat (-2 ^ 63) = -2 ^ 63 := by decide
  have e2 : int64ToFloat (2 ^ 63 - 1) = 2 ^ 63 := by decide
  have m1 := int64ToFloat_mono (-2 ^ 63) x (le_refl _) h2 h1
  have m2 := int64ToFloat_mono x (2 ^ 63 - 1) h1 (by norm_num) (by omega)
  rw [e1] at m1
  rw [e2] at m2
  exact ⟨m1, m2⟩

theorem isBinary32_of_isFloat32 (z : Int) (h : IsFloat32 z) : IsBinary32 (z : ℚ) := by
  obtain ⟨m, k, hm, e⟩ := h
  refine ⟨m, (k : Int), hm, ?_⟩
  have e' : |z| = ((m * 2 ^ k : ℕ) : Int) := by
    rw [← e]
    exact Int.abs_eq_natAbs z
  rw [zpow_natCast, ← Int.cast_abs, e']
  push_cast
  rfl

theorem int64ToFloat_eq_self_iff_binary32 (x : Int) (h1 : -2 ^ 63 ≤ x) (h2 : x < 2 ^ 63) :
    int64ToFloat x = x ↔ IsBinary32 (x : ℚ) := by
  constructor
  · intro h
    exact isBinary32_of_isFloat32 x ((int64ToFloat_eq_self_iff x h1 h2).mp h)
  · intro h
    have hn := int64ToFloat_nearest_rat x h1 h2 (x : ℚ) h
    rw [sub_self, abs_zero] at hn
    have h0 := abs_eq_zero.mp (le_antisymm hn (abs_nonneg _))
    have : ((int64ToFloat x : Int) : ℚ) = (x : ℚ) := by linarith
    exact_mod_cast this

theorem not_isBinary32_16777217 : ¬ IsBinary32 ((16777217 : Int) : ℚ) := by
  intro h
  have := (int64ToFloat_eq_self_iff_binary32 16777217 (by norm_num) (by norm_num)).mpr h
  revert this
  decide

/-! ## What the entry points compute -/

theorem windows_getUserTime_fst (os : Windows.OS) (locals : Windows.ProcessTimes) :
    (Windows.Java_de_jstacs_utils_UserTime_getUserTime os locals).1 =
      int64ToFloat (Windows.GetProcessTimes os (-1) locals).2.1.ftUser.asInt64 := by
  simp only [Windows.Java_de_jstacs_utils_UserTime_getUserTime, Windows.GetCurrentProcess]

theorem windows_getUserTime_of_success (os : Windows.OS) (locals : Windows.ProcessTimes)
    (h : os.querySucceeds (-1) = true) :
    (Windows.Java_de_jstacs_utils_UserTime_getUserTime os locals).1 =
      int64ToFloat os.times.ftUser.asInt64 := by
  simp [Windows.Java_de_jstacs_utils_UserTime_getUserTime, Windows.GetCurrentProcess,
    Windows.GetProcessTimes, h]

theorem posix_getUserTime_fst (os : Posix.OS) (x1 : Posix.tms) :
    (Posix.Java_de_jstacs_utils_UserTime_getUserTime os x1).1 =
      int64ToFloat (wrapInt64 (Posix.times os x1).2.1.tms_utime) := by
  simp only [Posix.Java_de_jstacs_utils_UserTime_getUserTime]

theorem posix_getUserTime_of_success (os : Posix.OS) (x1 : Posix.tms)
    (h : os.timesSucceeds = true) :
    (Posix.Java_de_jstacs_utils_UserTime_getUserTime os x1).1 =
      int64ToFloat (wrapInt64 os.acct.tms_utime) := by
  simp [Posix.Java_de_jstacs_utils_UserTime_getUserTime, Posix.times, h]

/-! ## The claims -/

/-- C1, as stated, fails: with a successful query reporting 16777217 ticks
(`2^24 + 1`) both variants return 16777216, not the field; 16777217 is not a
binary32 value, so no `jfloat` result can equal it. -/
theorem getUserTime_changes_the_field :
    (Windows.osReporting ⟨16777217, 0⟩).querySucceeds (-1) = true ∧
    (Windows.osReporting ⟨16777217, 0⟩).times.ftUser.asInt64 = 16777217 ∧
    (Windows.Java_de_jstacs_utils_UserTime_getUserTime
      (Windows.osReporting ⟨16777217, 0⟩) Windows.zeroLocals).1 = 16777216 ∧
    (Posix.osReporting 16777217 100).timesSucceeds = true ∧
    (Posix.osReporting 16777217 100).acct.tms_utime = 16777217 ∧
    (Posix.Java_de_jstacs_utils_UserTime_getUserTime
      (Posix.osReporting 16777217 100) Posix.zeroLocal).1 = 16777216 ∧
    ¬ IsBinary32 ((16777217 : Int) : ℚ) :=
  ⟨by decide, by decide, by decide, by decide, by decide, by decide, not_isBinary32_16777217⟩

/-- C1, amended: when the query succeeds, getUserTime returns the user-time
field converted to the binary32 return type, with no unit conversion.  In the
Windows variant the field is high word `* 2^32 +` low word read as a signed
64-bit integer, in the POSIX variant it is `tms_utime`.  The result equals the
field exactly when the field is a binary32 value, in particular whenever its
magnitude is at most `2^24`. -/
theorem getUserTime_returns_field_as_float :
    (∀ (os : Windows.OS) (locals : Windows.ProcessTimes),
      os.querySucceeds (-1) = true →
      os.times.ftUser.dwLowDateTime < 2 ^ 32 → os.times.ftUser.dwHighDateTime < 2 ^ 32 →
        os.times.ftUser.asInt64 =
          wrapInt64 ((os.times.ftUser.dwHighDateTime * 2 ^ 32 + os.times.ftUser.dwLowDateTime : Nat) : Int) ∧
        (Windows.Java_de_jstacs_utils_UserTime_getUserTime os locals).1 =
          int64ToFloat os.times.ftUser.asInt64 ∧
        ((Windows.Java_de_jstacs_utils_UserTime_getUserTime os locals).1 = os.times.ftUser.asInt64 ↔
          IsBinary32 (os.times.ftUser.asInt64 : ℚ)) ∧
        (-2 ^ 24 ≤ os.times.ftUser.asInt64 → os.times.ftUser.asInt64 ≤ 2 ^ 24 →
          (Windows.Java_de_jstacs_utils_UserTime_getUserTime os locals).1 =
            os.times.ftUser.asInt64)) ∧
    (∀ (os : Posix.OS) (x1 : Posix.tms),
      os.timesSucceeds = true → -2 ^ 63 ≤ os.acct.tms_utime → os.acct.tms_utime < 2 ^ 63 →
        (Posix.Java_de_jstacs_utils_UserTime_getUserTime os x1).1 =
          int64ToFloat os.acct.tms_utime ∧
        ((Posix.Java_de_jstacs_utils_UserTime_getUserTime os x1).1 = os.acct.tms_utime ↔
          IsBinary32 (os.acct.tms_utime : ℚ)) ∧
        (-2 ^ 24 ≤ os.acct.tms_utime → os.acct.tms_utime ≤ 2 ^ 24 →
          (Posix.Java_de_jstacs_utils_UserTime_getUserTime os x1).1 = os.acct.tms_utime)) := by
  constructor
  · intro os locals hs hl hh
    have hr := wrapInt64_range (os.times.ftUser.bits : Int)
    have e := windows_getUserTime_of_success os locals hs
    refine ⟨?_, e, ?_, ?_⟩
    · unfold FILETIME.asInt64
      rw [FILETIME.bits_of_dwords _ hl hh]
    · rw [e]
      exact int64ToFloat_eq_self_iff_binary32 _ hr.1 hr.2
    · intro h1 h2
      rw [e]
      exact int64ToFloat_exact _ h1 h2
  · intro os x1 hs h1 h2
    have e := posix_getUserTime_of_success os x1 hs
    rw [wrapInt64_of_range _ h1 h2] at e
    refine ⟨e, ?_, ?_⟩
    · rw [e]
      exact int64ToFloat_eq_self_iff_binary32 _ h1 h2
    · intro h3 h4
      rw [e]
      exact int64ToFloat_exact _ h3 h4

/-- C1, amended, at a concrete input: 3000 ticks are returned unchanged in both
variants. -/
theorem getUserTime_returns_field_as_float_witness :
    (Windows.Java_de_jstacs_utils_UserTime_getUserTime
      (Windows.osReporting ⟨3000, 0⟩) Windows.staleLocals).1 = 3000 ∧
    (Posix.Java_de_jstacs_utils_UserTime_getUserTime
      (Posix.osReporting 3000 100) Posix.staleLocal).1 = 3000 :=
  ⟨(getUserTime_returns_field_as_float.1 (Windows.osReporting ⟨3000, 0⟩) Windows.staleLocals
      (by decide) (by decide) (by decide)).2.2.2 (by decide) (by decide),
   (getUserTime_returns_field_as_float.2 (Posix.osReporting 3000 100) Posix.staleLocal
      (by decide) (by decide) (by decide)).2.2 (by decide) (by decide)⟩

/-- C2: getTicks returns the tick frequency of its variant: 10,000,000 in the
Windows variant for every OS state, and in the POSIX variant the value
`sysconf(_SC_CLK_TCK)` reports, unchanged. -/
theorem getTicks_returns_tick_frequency :
    (∀ os : Windows.OS, (Windows.Java_de_jstacs_utils_UserTime_getTicks os).1 = 10000000) ∧
    (∀ os : Posix.OS, (Posix.Java_de_jstacs_utils_UserTime_getTicks os).1 =
      (Posix.sysconf os Posix.ConfName._SC_CLK_TCK).1) := by
  constructor
  · intro os
    show wrapInt64 10000000 = 10000000
    decide
  · intro os
    show wrapInt64 (wrapInt64 _) = wrapInt64 _
    exact wrapInt64_idem _

/-- C3, as stated, fails: `sysconf` may report `-1`, and the POSIX getTicks
then returns `-1`, which is not positive. -/
theorem getTicks_not_positive_when_sysconf_fails :
    (Posix.sysconf (Posix.osReporting 0 (-1)) Posix.ConfName._SC_CLK_TCK).1 = -1 ∧
    (Posix.Java_de_jstacs_utils_UserTime_getTicks (Posix.osReporting 0 (-1))).1 = -1 ∧
    ¬ 0 < (Posix.Java_de_jstacs_utils_UserTime_getTicks (Posix.osReporting 0 (-1))).1 := by
  decide

/-- C3, amended: in the Windows variant getTicks is strictly positive for every
OS state; in the POSIX variant getTicks returns for every OS state, and its
result is strictly positive exactly when the value reported by
`sysconf(_SC_CLK_TCK)` is. -/
theorem getTicks_positive_iff_sysconf_positive :
    (∀ os : Windows.OS, 0 < (Windows.Java_de_jstacs_utils_UserTime_getTicks os).1) ∧
    (∀ os : Posix.OS, (0 < (Posix.Java_de_jstacs_utils_UserTime_getTicks os).1 ↔
      0 < (Posix.sysconf os Posix.ConfName._SC_CLK_TCK).1)) := by
  constructor
  · intro os
    show 0 < wrapInt64 10000000
    decide
  · intro os
    show 0 < wrapInt64 (wrapInt64 _) ↔ 0 < wrapInt64 _
    rw [wrapInt64_idem]

/-- C4, as stated, fails in the Windows variant: the user-time field grows from
`2^63 - 1` to `2^63`, both queries succeed, and the returned value drops from
`2^63` to `-2^63`. -/
theorem getUserTime_drops_at_sign_bit :
    (Windows.osReporting ⟨4294967295, 2147483647⟩).querySucceeds (-1) = true ∧
    (Windows.osReporting ⟨0, 2147483648⟩).querySucceeds (-1) = true ∧
    (Windows.osReporting ⟨4294967295, 2147483647⟩).times.ftUser.bits ≤
      (Windows.osReporting ⟨0, 2147483648⟩).times.ftUser.bits ∧
    (Windows.Java_de_jstacs_utils_UserTime_getUserTime
      (Windows.osReporting ⟨4294967295, 2147483647⟩) Windows.zeroLocals).1 = 2 ^ 63 ∧
    (Windows.Java_de_jstacs_utils_UserTime_getUserTime
      (Windows.osReporting ⟨0, 2147483648⟩) Windows.zeroLocals).1 = -2 ^ 63 ∧
    ¬ (Windows.Java_de_jstacs_utils_UserTime_getUserTime
        (Windows.osReporting ⟨4294967295, 2147483647⟩) Windows.zeroLocals).1 ≤
      (Windows.Java_de_jstacs_utils_UserTime_getUserTime
        (Windows.osReporting ⟨0, 2147483648⟩) Windows.zeroLocals).1 := by
  decide

/-- C4, amended: for two successful calls where the user-time field at the
second call is at least the field at the first, the second result is at least
the first, provided that in the Windows variant the two 64-bit fields are not
separated by `2^63` (not: first below `2^63`, second at or above it).  In the
POSIX variant this holds for all `clock_t` values.  The conversion to binary32
preserves order. -/
theorem getUserTime_monotone :
    (∀ (os1 os2 : Windows.OS) (l1 l2 : Windows.ProcessTimes),
      os1.querySucceeds (-1) = true → os2.querySucceeds (-1) = true →
      os1.times.ftUser.bits ≤ os2.times.ftUser.bits →
      ¬ (os1.times.ftUser.bits < 2 ^ 63 ∧ 2 ^ 63 ≤ os2.times.ftUser.bits) →
        (Windows.Java_de_jstacs_utils_UserTime_getUserTime os1 l1).1 ≤
          (Windows.Java_de_jstacs_utils_UserTime_getUserTime os2 l2).1) ∧
    (∀ (os1 os2 : Posix.OS) (l1 l2 : Posix.tms),
      os1.timesSucceeds = true → os2.timesSucceeds = true →
      -2 ^ 63 ≤ os1.acct.tms_utime → os2.acct.tms_utime < 2 ^ 63 →
      os1.acct.tms_utime ≤ os2.acct.tms_utime →
        (Posix.Java_de_jstacs_utils_UserTime_getUserTime os1 l1).1 ≤
          (Posix.Java_de_jstacs_utils_UserTime_getUserTime os2 l2).1) := by
  constructor
  · intro os1 os2 l1 l2 h1 h2 hle hsep
    rw [windows_getUserTime_of_success os1 l1 h1, windows_getUserTime_of_success os2 l2 h2]
    have r1 := wrapInt64_range (os1.times.ftUser.bits : Int)
    have r2 := wrapInt64_range (os2.times.ftUser.bits : Int)
    refine int64ToFloat_mono _ _ r1.1 r2.2 ?_
    rcases Nat.lt_or_ge os2.times.ftUser.bits (2 ^ 63) with hb | hb
    · rw [FILETIME.asInt64_of_lt _ hb, FILETIME.asInt64_of_lt _ (by omega)]
      omega
    · have hb1 : 2 ^ 63 ≤ os1.times.ftUser.bits := by
        by_contra hc
        exact hsep ⟨by omega, hb⟩
      rw [FILETIME.asInt64_of_ge _ hb, FILETIME.asInt64_of_ge _ hb1]
      omega
  · intro os1 os2 l1 l2 h1 h2 hlo hhi hle
    rw [posix_getUserTime_of_success os1 l1 h1, posix_getUserTime_of_success os2 l2 h2]
    rw [wrapInt64_of_range _ hlo (by omega), wrapInt64_of_range _ (by omega) hhi]
    exact int64ToFloat_mono _ _ hlo hhi hle

/-- C4, amended, at concrete inputs: user time going from 16777217 to 16777219
ticks gives results 16777216 and 16777220 in both variants. -/
theorem getUserTime_monotone_witness :
    (Windows.Java_de_jstacs_utils_UserTime_getUserTime
        (Windows.osReporting ⟨16777217, 0⟩) Windows.zeroLocals).1 ≤
      (Windows.Java_de_jstacs_utils_UserTime_getUserTime
        (Windows.osReporting ⟨16777219, 0⟩) Windows.staleLocals).1 ∧
    (Posix.Java_de_jstacs_utils_UserTime_getUserTime
        (Posix.osReporting 16777217 100) Posix.zeroLocal).1 ≤
      (Posix.Java_de_jstacs_utils_UserTime_getUserTime
        (Posix.osReporting 16777219 100) Posix.staleLocal).1 :=
  ⟨getUserTime_monotone.1 (Windows.osReporting ⟨16777217, 0⟩) (Windows.osReporting ⟨16777219, 0⟩)
      Windows.zeroLocals Windows.staleLocals (by decide) (by decide) (by decide) (by decide),
   getUserTime_monotone.2 (Posix.osReporting 16777217 100) (Posix.osReporting 16777219 100)
      Posix.zeroLocal Posix.staleLocal (by decide) (by decide) (by decide) (by decide)
      (by decide)⟩

/-- C5: getUserTime never surfaces an error.  In both variants it returns a
finite number for every OS state, failing queries included (a binary32 value
between `-2^63` and `2^63`); the number is the conversion of whatever the
user-time buffer holds after the query, so two runs whose buffers agree return
the same number whatever the return codes were; and when the query fails and
leaves the buffer untouched, the number is the conversion of what the buffer
held before the query. -/
theorem getUserTime_ignores_query_failure :
    (∀ (os : Windows.OS) (locals : Windows.ProcessTimes),
      IsBinary32 ((Windows.Java_de_jstacs_utils_UserTime_getUserTime os locals).1 : ℚ) ∧
      -2 ^ 63 ≤ (Windows.Java_de_jstacs_utils_UserTime_getUserTime os locals).1 ∧
      (Windows.Java_de_jstacs_utils_UserTime_getUserTime os locals).1 ≤ 2 ^ 63) ∧
    (∀ (os os' : Windows.OS) (l l' : Windows.ProcessTimes),
      (Windows.GetProcessTimes os (-1) l).2.1.ftUser =
          (Windows.GetProcessTimes os' (-1) l').2.1.ftUser →
        (Windows.Java_de_jstacs_utils_UserTime_getUserTime os l).1 =
          (Windows.Java_de_jstacs_utils_UserTime_getUserTime os' l').1) ∧
    (∀ (os : Windows.OS) (locals : Windows.ProcessTimes),
      os.querySucceeds (-1) = false → os.failureLeaves = none →
        (Windows.Java_de_jstacs_utils_UserTime_getUserTime os locals).1 =
          int64ToFloat locals.ftUser.asInt64) ∧
    (∀ (os : Posix.OS) (x1 : Posix.tms),
      IsBinary32 ((Posix.Java_de_jstacs_utils_UserTime_getUserTime os x1).1 : ℚ) ∧
      -2 ^ 63 ≤ (Posix.Java_de_jstacs_utils_UserTime_getUserTime os x1).1 ∧
      (Posix.Java_de_jstacs_utils_UserTime_getUserTime os x1).1 ≤ 2 ^ 63) ∧
    (∀ (os os' : Posix.OS) (l l' : Posix.tms),
      (Posix.times os l).2.1.tms_utime = (Posix.times os' l').2.1.tms_utime →
        (Posix.Java_de_jstacs_utils_UserTime_getUserTime os l).1 =
          (Posix.Java_de_jstacs_utils_UserTime_getUserTime os' l').1) ∧
    (∀ (os : Posix.OS) (x1 : Posix.tms),
      os.timesSucceeds = false → os.failureLeaves = none →
        (Posix.Java_de_jstacs_utils_UserTime_getUserTime os x1).1 =
          int64ToFloat (wrapInt64 x1.tms_utime)) := by
  refine ⟨?_, ?_, ?_, ?_, ?_, ?_⟩
  · intro os locals
    rw [windows_getUserTime_fst]
    have r := wrapInt64_range ((Windows.GetProcessTimes os (-1) locals).2.1.ftUser.bits : Int)
    exact ⟨isBinary32_of_isFloat32 _ (int64ToFloat_isFloat32 _ r.1 r.2),
      int64ToFloat_bounds _ r.1 r.2⟩
  · intro os os' l l' h
    rw [windows_getUserTime_fst, windows_getUserTime_fst, h]
  · intro os locals h1 h2
    rw [windows_getUserTime_fst]
    simp [Windows.GetProcessTimes, h1, h2]
  · intro os x1
    rw [posix_getUserTime_fst]
    have r := wrapInt64_range (Posix.times os x1).2.1.tms_utime
    exact ⟨isBinary32_of_isFloat32 _ (int64ToFloat_isFloat32 _ r.1 r.2),
      int64ToFloat_bounds _ r.1 r.2⟩
  · intro os os' l l' h
    rw [posix_getUserTime_fst, posix_getUserTime_fst, h]
  · intro os x1 h1 h2
    rw [posix_getUserTime_fst]
    simp [Posix.times, h1, h2]

/-- C5 at concrete inputs: the query fails and leaves the buffer untouched, the
buffer held 700 before the call, and both variants return 700. -/
theorem getUserTime_ignores_query_failure_witness :
    (Windows.Java_de_jstacs_utils_UserTime_getUserTime
      Windows.osFailing Windows.staleLocals).1 = int64ToFloat Windows.staleLocals.ftUser.asInt64 ∧
    (Posix.Java_de_jstacs_utils_UserTime_getUserTime
      Posix.osFailing Posix.staleLocal).1 = int64ToFloat (wrapInt64 Posix.staleLocal.tms_utime) ∧
    int64ToFloat Windows.staleLocals.ftUser.asInt64 = 700 ∧
    int64ToFloat (wrapInt64 Posix.staleLocal.tms_utime) = 700 :=
  ⟨getUserTime_ignores_query_failure.2.2.1 Windows.osFailing Windows.staleLocals rfl rfl,
   getUserTime_ignores_query_failure.2.2.2.2.2 Posix.osFailing Posix.staleLocal rfl rfl,
   by decide, by decide⟩

/-- C6 fails on the code: in a build that defines `_MSC_VER` and not
`__WIN32__` the `#ifdef` on line 7 is false and the POSIX group is compiled,
where the `defined(..) || defined(..)` reading of the same line selects the
Windows group. -/
theorem ifdef_selects_posix_under_msvc :
    msvcBuild.defined Macro._MSC_VER = true ∧
    msvcBuild.defined Macro.__WIN32__ = false ∧
    evalDefinedExpr msvcBuild ifdefLine = true ∧
    evalIfdef msvcBuild ifdefLine = false ∧
    compiledVariants msvcBuild = [Variant.Posix] := by
  decide

/-- Exactly one group is compiled in every build configuration, and it is the
Windows group exactly when `__WIN32__` is defined. -/
theorem compiledVariants_one (cfg : BuildConfig) :
    (compiledVariants cfg).length = 1 ∧
    (compiledVariants cfg = [Variant.Windows] ↔ cfg.defined Macro.__WIN32__ = true) ∧
    (compiledVariants cfg = [Variant.Posix] ↔ cfg.defined Macro.__WIN32__ = false) := by
  unfold compiledVariants evalIfdef ifdefLine
  cases h : cfg.defined Macro.__WIN32__ <;> simp [h]

/-- C7: getTicks is stable.  In both variants a call leaves the OS state as
it was and a second call made on that state returns the same value.  The
result depends on nothing but the platform's configured tick value: in the
Windows variant any two OS states give the same result, and in the POSIX
variant any two OS states that agree on the value configured for
`_SC_CLK_TCK` give the same result, whatever their process accounting, their
other configuration values and the outcome of their time queries. -/
theorem getTicks_stable :
    (∀ os : Windows.OS,
      (Windows.Java_de_jstacs_utils_UserTime_getTicks
        (Windows.Java_de_jstacs_utils_UserTime_getTicks os).2).1 =
      (Windows.Java_de_jstacs_utils_UserTime_getTicks os).1) ∧
    (∀ os : Posix.OS,
      (Posix.Java_de_jstacs_utils_UserTime_getTicks
        (Posix.Java_de_jstacs_utils_UserTime_getTicks os).2).1 =
      (Posix.Java_de_jstacs_utils_UserTime_getTicks os).1) ∧
    (∀ os : Windows.OS, (Windows.Java_de_jstacs_utils_UserTime_getTicks os).2 = os) ∧
    (∀ os : Posix.OS, (Posix.Java_de_jstacs_utils_UserTime_getTicks os).2 = os) ∧
    (∀ os os' : Windows.OS,
      (Windows.Java_de_jstacs_utils_UserTime_getTicks os).1 =
        (Windows.Java_de_jstacs_utils_UserTime_getTicks os').1) ∧
    (∀ os os' : Posix.OS,
      os.conf Posix.ConfName._SC_CLK_TCK = os'.conf Posix.ConfName._SC_CLK_TCK →
        (Posix.Java_de_jstacs_utils_UserTime_getTicks os).1 =
          (Posix.Java_de_jstacs_utils_UserTime_getTicks os').1) := by
  refine ⟨fun _ => rfl, fun _ => rfl, fun _ => rfl, fun _ => rfl, fun _ _ => rfl, ?_⟩
  intro os os' h
  show wrapInt64 (wrapInt64 (os.conf Posix.ConfName._SC_CLK_TCK)) =
    wrapInt64 (wrapInt64 (os'.conf Posix.ConfName._SC_CLK_TCK))
  rw [h]

/-- C7 at concrete inputs: two POSIX states that agree on the configured clock
tick (100) and differ in accounting, in the outcome of `times` and in every
other configuration value both return 100; two Windows states that differ in
every field return the same value. -/
theorem getTicks_stable_witness :
    Posix.osOtherAccounting.conf (Posix.ConfName.other 0) ≠
      (Posix.osReporting 3000 100).conf (Posix.ConfName.other 0) ∧
    Posix.osOtherAccounting.acct.tms_utime ≠ (Posix.osReporting 3000 100).acct.tms_utime ∧
    (Posix.Java_de_jstacs_utils_UserTime_getTicks (Posix.osReporting 3000 100)).1 =
      (Posix.Java_de_jstacs_utils_UserTime_getTicks Posix.osOtherAccounting).1 ∧
    (Posix.Java_de_jstacs_utils_UserTime_getTicks Posix.osOtherAccounting).1 = 100 ∧
    (Windows.Java_de_jstacs_utils_UserTime_getTicks (Windows.osReporting ⟨3000, 0⟩)).1 =
      (Windows.Java_de_jstacs_utils_UserTime_getTicks Windows.osOtherAccounting).1 :=
  ⟨by decide, by decide,
   getTicks_stable.2.2.2.2.2 (Posix.osReporting 3000 100) Posix.osOtherAccounting rfl,
   by decide,
   getTicks_stable.2.2.2.2.1 (Windows.osReporting ⟨3000, 0⟩) Windows.osOtherAccounting⟩

/-- C9, as stated, fails in the Windows variant: a successful query that
reports the field with high word `0x80000000` makes getUserTime return
`-2^63`. -/
theorem getUserTime_negative_on_high_bit :
    (Windows.osReporting ⟨0, 2147483648⟩).querySucceeds (-1) = true ∧
    (Windows.Java_de_jstacs_utils_UserTime_getUserTime
      (Windows.osReporting ⟨0, 2147483648⟩) Windows.zeroLocals).1 = -2 ^ 63 ∧
    ¬ 0 ≤ (Windows.Java_de_jstacs_utils_UserTime_getUserTime
      (Windows.osReporting ⟨0, 2147483648⟩) Windows.zeroLocals).1 := by
  decide

/-- C9, amended: when the query succeeds, the Windows getUserTime is
non-negative exactly for the fields below `2^63` (high word below `2^31`), and
the POSIX getUserTime is non-negative for every non-negative `tms_utime`. -/
theorem getUserTime_nonneg :
    (∀ (os : Windows.OS) (locals : Windows.ProcessTimes),
      os.querySucceeds (-1) = true →
        (0 ≤ (Windows.Java_de_jstacs_utils_UserTime_getUserTime os locals).1 ↔
          os.times.ftUser.bits < 2 ^ 63)) ∧
    (∀ (os : Posix.OS) (x1 : Posix.tms),
      os.timesSucceeds = true → 0 ≤ os.acct.tms_utime → os.acct.tms_utime < 2 ^ 63 →
        0 ≤ (Posix.Java_de_jstacs_utils_UserTime_getUserTime os x1).1) := by
  constructor
  · intro os locals hs
    rw [windows_getUserTime_of_success os locals hs]
    have r : -2 ^ 63 ≤ os.times.ftUser.asInt64 ∧ os.times.ftUser.asInt64 < 2 ^ 63 :=
      wrapInt64_range (os.times.ftUser.bits : Int)
    rw [int64ToFloat_nonneg_iff _ r.1 r.2]
    rcases Nat.lt_or_ge os.times.ftUser.bits (2 ^ 63) with hb | hb
    · rw [FILETIME.asInt64_of_lt _ hb]
      omega
    · have := os.times.ftUser.bits_lt
      rw [FILETIME.asInt64_of_ge _ hb]
      omega
  · intro os x1 hs h0 h1
    rw [posix_getUserTime_of_success os x1 hs, wrapInt64_of_range _ (by omega) h1]
    exact (int64ToFloat_nonneg_iff _ (by omega) h1).mpr h0

/-- C9, amended, at concrete inputs: 16777217 reported ticks give a
non-negative result in both variants. -/
theorem getUserTime_nonneg_witness :
    0 ≤ (Windows.Java_de_jstacs_utils_UserTime_getUserTime
      (Windows.osReporting ⟨16777217, 0⟩) Windows.zeroLocals).1 ∧
    0 ≤ (Posix.Java_de_jstacs_utils_UserTime_getUserTime
      (Posix.osReporting 16777217 100) Posix.zeroLocal).1 :=
  ⟨(getUserTime_nonneg.1 (Windows.osReporting ⟨16777217, 0⟩) Windows.zeroLocals
      (by decide)).mpr (by decide),
   getUserTime_nonneg.2 (Posix.osReporting 16777217 100) Posix.zeroLocal
      (by decide) (by decide) (by decide)⟩

end UserTime
